import Mathlib

/-!
Verification of the rst2gfm Markdown translator (src/rst2gfm/main.py).

The source is a docutils `NodeVisitor` subclass (`MarkdownTranslator`) driven
by docutils' depth-first traversal engine `docutils.nodes.Node.walkabout`.
This file shallowly embeds:

* the document tree (`Node`, with a type tag, an attribute record and
  ordered children — the abstract node interface the translator consumes),
* the translator's mutable state (`MarkdownTranslator`, one field per
  attribute set in `MarkdownTranslator.__init__`, plus `Option` fields for
  the attributes the source creates dynamically and tests with `hasattr`),
* every `visit_...` / `depart_...` handler of the source, each as one Lean
  function translated line by line from the Python method of the same name,
* the traversal engine `walkabout`, translated from
  `docutils.nodes.Node.walkabout` (an external, fixed interface of the
  program): it catches only docutils' own tree-pruning exception classes.
  The repository defines its *own* `class SkipNode(Exception)`, which is a
  different class from `docutils.nodes.SkipNode`; the embedding keeps the
  two apart in `PyExc`.

Python-level semantics (string repetition with negative counts, `str.join`,
`str.replace` with one-character patterns, truthiness of lists, dict
insertion) are modelled by the small `py...` helpers below.
-/

/-- Python `sep.join(parts)`. -/
def pyJoin (sep : String) : List String → String
  | [] => ""
  | [x] => x
  | x :: xs => x ++ sep ++ pyJoin sep xs

/-- Python `s * n` for strings: `n` copies of `s`, the empty string when
`n ≤ 0` (Python returns `""` for non-positive repeat counts). -/
def pyMul (s : String) (n : Int) : String :=
  String.join (List.replicate n.toNat s)

/-- Python `str.lower` (ASCII letters; the names appearing in this
development are ASCII). -/
def pyLower (s : String) : String :=
  String.mk (s.data.map Char.toLower)

/-- The ASCII whitespace characters stripped by Python `str.strip()`. -/
def pyIsSpace (c : Char) : Bool :=
  c = ' ' || c = '\t' || c = '\n' || c = '\r' || c = Char.ofNat 11 || c = Char.ofNat 12

/-- Python `str.strip()` with no argument. -/
def pyStrip (s : String) : String :=
  String.mk (((s.data.dropWhile pyIsSpace).reverse.dropWhile pyIsSpace).reverse)

/-- Python `s.replace(pat, rep)` for the one-character patterns used by the
source (`"\n" -> "<br>"` in `depart_entry`, `" " -> "-"` in the anchor and
refname normalizers). -/
def pyReplace1 (pat : Char) (rep : String) (s : String) : String :=
  String.join (s.data.map (fun c => if c = pat then rep else String.singleton c))

/-- `re.sub(r"[^\w\-]", "", s)` over ASCII: keep alphanumerics, underscore
and hyphen. -/
def reSubNonWord (s : String) : String :=
  String.mk (s.data.filter (fun c => c.isAlphanum || c = '_' || c = '-'))

/-- The ASCII apostrophe, written via its code point. -/
def apos : String := String.singleton (Char.ofNat 39)

/-- Python `str(l)` for a list of plain strings, as produced by an f-string
interpolating a list value (entries needing no escaping). -/
def pyStrOfList (l : List String) : String :=
  "[" ++ pyJoin ", " (l.map (fun x => apos ++ x ++ apos)) ++ "]"

/-- Decidable substring helpers used to state counterexamples. -/
def charsHavePrefix : List Char → List Char → Bool
  | _, [] => true
  | [], _ :: _ => false
  | c :: cs, d :: ds => c = d && charsHavePrefix cs ds

def charsContain : List Char → List Char → Bool
  | [], n => n.isEmpty
  | c :: cs, n => charsHavePrefix (c :: cs) n || charsContain cs n

/-- `needle` occurs as a contiguous substring of `hay`. -/
def strContains (hay needle : String) : Bool :=
  charsContain hay.data needle.data

/-- Python dict assignment `m[k] = v` on a dict represented as an ordered
association list: replace the binding if the key exists, else append. -/
def dictSet (m : List (String × String)) (k v : String) : List (String × String) :=
  if m.any (fun p => p.1 = k) then m.map (fun p => if p.1 = k then (k, v) else p)
  else m ++ [(k, v)]

/-- Python `k in m` plus `m[k]` on the same representation: the value when
the key is bound, `none` otherwise. -/
def dictGet : List (String × String) → String → Option String
  | [], _ => none
  | p :: ps, k => if p.1 = k then some p.2 else dictGet ps k

/-- The node type tags of the docutils vocabulary handled by the translator
(method suffixes of the source's `visit_...`/`depart_...`), with `other`
for every tag that falls back to `unknown_visit`/`unknown_departure`. -/
inductive Tag where
  | document
  | «section»
  | title
  | subtitle
  | paragraph
  | emphasis
  | strong
  | literal
  | bullet_list
  | enumerated_list
  | list_item
  | reference
  | literal_block
  | table
  | row
  | entry
  | transition
  | image
  | block_quote
  | definition_list
  | definition_list_item
  | term
  | definition
  | target
  | substitution_definition
  | comment
  | system_message
  | other (name : String)
  deriving DecidableEq

/-- An attribute value as read out of a docutils node by an f-string:
either a plain string (e.g. a `language` attribute) or a list of strings
(e.g. the `classes` attribute). -/
inductive AttrVal where
  | str (s : String)
  | list (l : List String)
  deriving DecidableEq

/-- Python `str(v)` / f-string interpolation of an attribute value. -/
def pyStr : AttrVal → String
  | AttrVal.str s => s
  | AttrVal.list l => pyStrOfList l

/-- The node attributes the translator reads. A `none` / `[]` value models
the attribute being absent (`"x" in node` false / empty docutils list). -/
structure Attrs where
  refuri : Option String := none
  refid : Option String := none
  refname : Option String := none
  names : List String := []
  classes : List String := []
  language : Option String := none
  uri : Option String := none
  alt : Option String := none
  morecols : Option Int := none
  morerows : Option Int := none
  deriving DecidableEq

/-- A docutils document-tree node: a `Text` leaf or a typed element with
attributes and ordered children. -/
inductive Node where
  | text (s : String)
  | elem (tag : Tag) (attrs : Attrs) (children : List Node)

/-- Attribute record of a node (`Text` nodes carry no attributes). -/
def Node.nattrs : Node → Attrs
  | Node.text _ => {}
  | Node.elem _ a _ => a

/-- `child_text_separator` of docutils elements: `""` for the
`TextElement`s among our tags, `"\n\n"` for body elements (docutils
default). Only the `""` cases are exercised by the source, which calls
`astext` on `title` and `reference` nodes whose subtrees are inline. -/
def childSep : Tag → String
  | Tag.title => ""
  | Tag.subtitle => ""
  | Tag.paragraph => ""
  | Tag.emphasis => ""
  | Tag.strong => ""
  | Tag.literal => ""
  | Tag.reference => ""
  | Tag.literal_block => ""
  | Tag.term => ""
  | Tag.target => ""
  | Tag.comment => ""
  | Tag.substitution_definition => ""
  | Tag.system_message => ""
  | _ => "\n\n"

mutual
/-- docutils `Node.astext()`: the concatenation of the text of all `Text`
descendants, children joined with the element's `child_text_separator`. -/
def astext : Node → String
  | Node.text s => s
  | Node.elem tag _ cs => pyJoin (childSep tag) (astextList cs)

def astextList : List Node → List String
  | [] => []
  | c :: cs => astext c :: astextList cs
end

/-- An entry of the translator's `reference_stack`: the dict
`{"start": len(self.output), "text": node.astext()}`. -/
structure RefInfo where
  start : Nat
  text : String
  deriving DecidableEq

/-- The translator's mutable state: one field per attribute assigned in
`MarkdownTranslator.__init__`, in source order, plus `Option`-valued fields
for the attributes created dynamically (`table_type`, `table_caption`,
`current_cell_colspan`, `current_cell_rowspan`, `list_counter`), where
`none` models the attribute being absent (`hasattr` false). `entry_text`
is `Option` because the source assigns `None` to it in `depart_entry`. -/
structure MarkdownTranslator where
  output : List String := []
  list_depth : Int := 0
  section_level : Int := 0
  in_code_block : Bool := false
  code_language : String := "python"
  in_table : Bool := false
  table_data : List (List String) := []
  table_has_header : Bool := true
  current_row : List String := []
  entry_text : Option (List String) := some []
  list_type : List String := []
  reference_stack : List RefInfo := []
  pending_refs : List (String × String) := []
  refs_map : List (String × String) := []
  table_type : Option String := none
  table_caption : Option String := none
  current_cell_colspan : Option Int := none
  current_cell_rowspan : Option Int := none
  list_counter : Option Int := none
  deriving DecidableEq

/-- The state built by `MarkdownTranslator.__init__`. -/
def initTranslator : MarkdownTranslator := {}

/-- The Python exceptions relevant to this program's traversal. `SkipNode`
is the repository's own `class SkipNode(Exception)` from `main.py`;
`docutilsSkipNode` is the distinct class `docutils.nodes.SkipNode` that
the docutils traversal engine catches. -/
inductive PyExc where
  | SkipNode
  | docutilsSkipNode
  deriving DecidableEq

/-- `_make_anchor`: lower-case, spaces to hyphens, drop every character
that is not alphanumeric, underscore or hyphen. -/
def _make_anchor (ref_id : String) : String :=
  reSubNonWord (pyReplace1 ' ' "-" (pyLower ref_id))

/-- `_normalize_refname`: lower-case with spaces replaced by hyphens. -/
def _normalize_refname (refname : String) : String :=
  pyReplace1 ' ' "-" (pyLower refname)

def visit_document (_node : Node) (s : MarkdownTranslator) : MarkdownTranslator := s

/-- One iteration of the `for ref_id, refname in self.pending_refs` loop of
`depart_document`: emit `[ref_id]: uri` when the original name is bound in
`refs_map`, else nothing. -/
def resolvePendingRef (st : MarkdownTranslator) (p : String × String) : MarkdownTranslator :=
  match dictGet st.refs_map p.2 with
  | some uri => { st with output := st.output ++ ["[" ++ p.1 ++ "]: " ++ uri ++ "\n"] }
  | none => st

/-- `depart_document`: if any references are pending, emit a blank line and
then one definition line per pending reference whose original name is
bound in `refs_map`. -/
def depart_document (_node : Node) (s : MarkdownTranslator) : MarkdownTranslator :=
  if s.pending_refs.isEmpty then s
  else
    s.pending_refs.foldl resolvePendingRef { s with output := s.output ++ ["\n\n"] }

def visit_section (_node : Node) (s : MarkdownTranslator) : MarkdownTranslator :=
  { s with section_level := s.section_level + 1 }

def depart_section (_node : Node) (s : MarkdownTranslator) : MarkdownTranslator :=
  { s with section_level := s.section_level - 1 }

def visit_subtitle (_node : Node) (s : MarkdownTranslator) : MarkdownTranslator :=
  { s with output := s.output ++ ["## "], section_level := s.section_level + 1 }

/-- `depart_subtitle`: the decrement of `section_level` is commented out in
the source (`# self.section_level -= 1`), so only the blank line is
emitted. -/
def depart_subtitle (_node : Node) (s : MarkdownTranslator) : MarkdownTranslator :=
  { s with output := s.output ++ ["\n\n"] }

def visit_title (node : Node) (s : MarkdownTranslator) : MarkdownTranslator :=
  if s.in_table then { s with table_caption := some (astext node) }
  else { s with output := s.output ++ [pyMul "#" (s.section_level + 1) ++ " "] }

def depart_title (_node : Node) (s : MarkdownTranslator) : MarkdownTranslator :=
  { s with output := s.output ++ ["\n\n"] }

def visit_paragraph (_node : Node) (s : MarkdownTranslator) : MarkdownTranslator := s

def depart_paragraph (_node : Node) (s : MarkdownTranslator) : MarkdownTranslator :=
  { s with output := s.output ++ ["\n\n"] }

/-- `visit_Text`: text goes to the cell buffer while inside a table with a
live entry buffer (`self.in_table and self.entry_text is not None`),
otherwise to the output buffer. -/
def visit_Text (node : Node) (s : MarkdownTranslator) : MarkdownTranslator :=
  let text := astext node
  if s.in_table && s.entry_text.isSome then
    { s with entry_text := s.entry_text.map (fun l => l ++ [text]) }
  else { s with output := s.output ++ [text] }

def depart_Text (_node : Node) (s : MarkdownTranslator) : MarkdownTranslator := s

def visit_emphasis (_node : Node) (s : MarkdownTranslator) : MarkdownTranslator :=
  { s with output := s.output ++ ["*"] }

def depart_emphasis (_node : Node) (s : MarkdownTranslator) : MarkdownTranslator :=
  { s with output := s.output ++ ["*"] }

def visit_strong (_node : Node) (s : MarkdownTranslator) : MarkdownTranslator :=
  { s with output := s.output ++ ["**"] }

def depart_strong (_node : Node) (s : MarkdownTranslator) : MarkdownTranslator :=
  { s with output := s.output ++ ["**"] }

def visit_literal (_node : Node) (s : MarkdownTranslator) : MarkdownTranslator :=
  { s with output := s.output ++ ["`"] }

def depart_literal (_node : Node) (s : MarkdownTranslator) : MarkdownTranslator :=
  { s with output := s.output ++ ["`"] }

/-- `visit_bullet_list`: increment `list_depth`, push `"bullet"`, and emit
a blank line before a sublist (`self.list_depth > 1` checked after the
increment). -/
def visit_bullet_list (_node : Node) (s : MarkdownTranslator) : MarkdownTranslator :=
  let s1 := { s with list_depth := s.list_depth + 1, list_type := s.list_type ++ ["bullet"] }
  if s1.list_depth > 1 then { s1 with output := s1.output ++ ["\n"] } else s1

def depart_bullet_list (_node : Node) (s : MarkdownTranslator) : MarkdownTranslator :=
  { s with list_depth := s.list_depth - 1, list_type := s.list_type.dropLast,
           output := s.output ++ ["\n"] }

/-- `visit_list_item`: indentation from `list_depth` (two spaces per level
below the first for bullet, three for enumerated), marker `- ` or always
`1. `. The source reads `self.list_type[-1]`; a `list_item` outside any
list would raise `IndexError` in Python and cannot occur in a docutils
tree, so that case is modelled as a no-op. -/
def visit_list_item (_node : Node) (s : MarkdownTranslator) : MarkdownTranslator :=
  match s.list_type.getLast? with
  | some kind =>
    if kind = "bullet" then
      { s with output := s.output ++ ["\n" ++ pyMul "  " (s.list_depth - 1) ++ "- "] }
    else
      { s with output := s.output ++ ["\n" ++ pyMul "   " (s.list_depth - 1) ++ "1. "] }
  | none => s

def depart_list_item (_node : Node) (s : MarkdownTranslator) : MarkdownTranslator := s

/-- `visit_reference`: record the current output length and the subtree's
plain text on the reference stack; all four attribute branches of the
source append the same `"["`. -/
def visit_reference (node : Node) (s : MarkdownTranslator) : MarkdownTranslator :=
  let s1 := { s with reference_stack :=
    s.reference_stack ++ [{ start := s.output.length, text := astext node : RefInfo }] }
  if node.nattrs.refuri.isSome then { s1 with output := s1.output ++ ["["] }
  else if node.nattrs.refid.isSome then { s1 with output := s1.output ++ ["["] }
  else if node.nattrs.refname.isSome then { s1 with output := s1.output ++ ["["] }
  else { s1 with output := s1.output ++ ["["] }

/-- `depart_reference`: pop the stack (no-op when empty); if the children
appended anything beyond the opening bracket, truncate the buffer back and
re-append the recorded plain text; then close according to
`refuri` / `refid` / `refname` / fallback. -/
def depart_reference (node : Node) (s : MarkdownTranslator) : MarkdownTranslator :=
  match s.reference_stack.getLast? with
  | none => s
  | some ref_info =>
    let s1 := { s with reference_stack := s.reference_stack.dropLast }
    let s2 :=
      if s1.output.length > ref_info.start + 1 then
        { s1 with output := s1.output.take (ref_info.start + 1) ++ [ref_info.text] }
      else s1
    match node.nattrs.refuri with
    | some refuri => { s2 with output := s2.output ++ ["](" ++ refuri ++ ")"] }
    | none =>
      match node.nattrs.refid with
      | some refid =>
        { s2 with output := s2.output ++ ["](#" ++ _make_anchor refid ++ ")"] }
      | none =>
        match node.nattrs.refname with
        | some refname =>
          let ref_id := _normalize_refname refname
          { s2 with output := s2.output ++ ["][" ++ ref_id ++ "]"],
                    pending_refs := s2.pending_refs ++ [(ref_id, refname)] }
        | none => { s2 with output := s2.output ++ ["]"] }

/-- `visit_literal_block`: the language tag comes from the `language`
attribute if present; otherwise, when `classes` is non-empty, the source
compares the whole `classes` *list* against the *string* `"code"` (always
unequal in Python) and then interpolates the list itself into the fence
f-string. `highlight_args` is read but unused. -/
def visit_literal_block (node : Node) (s : MarkdownTranslator) : MarkdownTranslator :=
  let language : AttrVal :=
    match node.nattrs.language with
    | some l => AttrVal.str l
    | none =>
      if node.nattrs.classes.length > 0 then
        let potential_lang := AttrVal.list node.nattrs.classes
        if potential_lang ≠ AttrVal.str "code" then potential_lang else AttrVal.str ""
      else AttrVal.str ""
  { s with in_code_block := true, output := s.output ++ ["\n```" ++ pyStr language] }

def depart_literal_block (_node : Node) (s : MarkdownTranslator) : MarkdownTranslator :=
  { s with in_code_block := false, output := s.output ++ ["\n```\n\n"] }

/-- `visit_table`: fresh row accumulator, table-kind classification from
`classes`, header presence unless a `no-header` class is present. -/
def visit_table (node : Node) (s : MarkdownTranslator) : MarkdownTranslator :=
  let table_type :=
    if node.nattrs.classes.contains "csv-table" then "csv"
    else if node.nattrs.classes.contains "list-table" then "list"
    else if node.nattrs.classes.contains "grid" then "grid"
    else "simple"
  { s with table_data := [], in_table := true, table_type := some table_type,
           table_has_header := !(node.nattrs.classes.contains "no-header") }

/-- `depart_table`: the source returns immediately when `table_data` is
empty — before the final `self.in_table = False` and before the caption
`delattr`, so neither is executed on that path. Otherwise: pad rows to the
maximal width, emit a header row (first data row, or the `<!-- -->`
placeholder row), the `---` separator row, the data rows, and the captured
caption if any (which is then cleared). -/
def depart_table (_node : Node) (s : MarkdownTranslator) : MarkdownTranslator :=
  match s.table_data with
  | [] => s
  | first :: rest =>
    let col_count := ((first :: rest).map List.length).foldl Nat.max 0
    let header := first ++ List.replicate (col_count - first.length) ""
    let table_md :=
      if s.table_has_header then
        ["| " ++ pyJoin " | " header ++ " |",
         "| " ++ pyJoin " | " (List.replicate header.length "---") ++ " |"]
      else
        ["| " ++ pyJoin " | " (List.replicate col_count "<!-- -->") ++ " |",
         "| " ++ pyJoin " | " (List.replicate col_count "---") ++ " |"]
    let data_rows := if s.table_has_header then rest else first :: rest
    let table_md := table_md ++ data_rows.map (fun row =>
      "| " ++ pyJoin " | " (row ++ List.replicate (col_count - row.length) "") ++ " |")
    let table_md :=
      match s.table_caption with
      | some cap => table_md ++ ["\n*Table: " ++ cap ++ "*\n"]
      | none => table_md
    { s with output := s.output ++ ["\n" ++ pyJoin "\n" table_md ++ "\n\n"],
             in_table := false, table_caption := none }

def visit_row (_node : Node) (s : MarkdownTranslator) : MarkdownTranslator :=
  { s with current_row := [] }

def depart_row (_node : Node) (s : MarkdownTranslator) : MarkdownTranslator :=
  { s with table_data := s.table_data ++ [s.current_row] }

def visit_entry (node : Node) (s : MarkdownTranslator) : MarkdownTranslator :=
  { s with entry_text := some [],
           current_cell_colspan := some (node.nattrs.morecols.getD 0 + 1),
           current_cell_rowspan := some (node.nattrs.morerows.getD 0 + 1) }

/-- `depart_entry`: join the buffered text runs, `<br>` the newlines, trim,
append the cell plus `morecols` empty spill cells, and kill the buffer.
`entry_text` is always a list here (set by the pairing `visit_entry`;
Python would raise `TypeError` on `None`). -/
def depart_entry (_node : Node) (s : MarkdownTranslator) : MarkdownTranslator :=
  let text := pyStrip (pyReplace1 '\n' "<br>" (pyJoin "" (s.entry_text.getD [])))
  let row := s.current_row ++ [text]
  let row :=
    match s.current_cell_colspan with
    | some c => if c > 1 then row ++ List.replicate (c - 1).toNat "" else row
    | none => row
  { s with current_row := row, entry_text := none }

def visit_transition (_node : Node) (s : MarkdownTranslator) : MarkdownTranslator :=
  { s with output := s.output ++ ["\n---\n\n"] }

def depart_transition (_node : Node) (s : MarkdownTranslator) : MarkdownTranslator := s

def visit_image (node : Node) (s : MarkdownTranslator) : MarkdownTranslator :=
  { s with output :=
      s.output ++ ["![" ++ node.nattrs.alt.getD "" ++ "](" ++ node.nattrs.uri.getD "" ++ ")"] }

def depart_image (_node : Node) (s : MarkdownTranslator) : MarkdownTranslator := s

def visit_block_quote (_node : Node) (s : MarkdownTranslator) : MarkdownTranslator :=
  { s with output := s.output ++ ["\n> "] }

def depart_block_quote (_node : Node) (s : MarkdownTranslator) : MarkdownTranslator :=
  { s with output := s.output ++ ["\n\n"] }

/-- `visit_enumerated_list`: sets `list_counter` and pushes `"enumerated"`;
unlike `visit_bullet_list` it does not touch `list_depth` and emits
nothing. -/
def visit_enumerated_list (_node : Node) (s : MarkdownTranslator) : MarkdownTranslator :=
  { s with list_counter := some 1, list_type := s.list_type ++ ["enumerated"] }

def depart_enumerated_list (_node : Node) (s : MarkdownTranslator) : MarkdownTranslator :=
  { s with output := s.output ++ ["\n"], list_type := s.list_type.dropLast }

def visit_definition_list (_node : Node) (s : MarkdownTranslator) : MarkdownTranslator := s

def depart_definition_list (_node : Node) (s : MarkdownTranslator) : MarkdownTranslator :=
  { s with output := s.output ++ ["\n"] }

def visit_definition_list_item (_node : Node) (s : MarkdownTranslator) : MarkdownTranslator := s

def depart_definition_list_item (_node : Node) (s : MarkdownTranslator) : MarkdownTranslator := s

def visit_term (_node : Node) (s : MarkdownTranslator) : MarkdownTranslator :=
  { s with output := s.output ++ ["\n**"] }

def depart_term (_node : Node) (s : MarkdownTranslator) : MarkdownTranslator :=
  { s with output := s.output ++ ["**\n"] }

def visit_definition (_node : Node) (s : MarkdownTranslator) : MarkdownTranslator :=
  { s with output := s.output ++ [": "] }

def depart_definition (_node : Node) (s : MarkdownTranslator) : MarkdownTranslator :=
  { s with output := s.output ++ ["\n"] }

/-- `visit_target`: a `refid` target emits an inline anchor; a `refuri`
target with at least one name records the URI in `refs_map` under the
*original* first name (the normalized `ref_id` computed by the source is a
dead local). -/
def visit_target (node : Node) (s : MarkdownTranslator) : MarkdownTranslator :=
  match node.nattrs.refid with
  | some refid =>
    { s with output := s.output ++ ["<a id=\"" ++ _make_anchor refid ++ "\"></a>"] }
  | none =>
    match node.nattrs.refuri with
    | some refuri =>
      match node.nattrs.names with
      | name0 :: _ => { s with refs_map := dictSet s.refs_map name0 refuri }
      | [] => s
    | none => s

def depart_target (_node : Node) (s : MarkdownTranslator) : MarkdownTranslator := s

def unknown_visit (_node : Node) (s : MarkdownTranslator) : MarkdownTranslator := s

def unknown_departure (_node : Node) (s : MarkdownTranslator) : MarkdownTranslator := s

/-- `NodeVisitor.dispatch_visit`: select `visit_<class name>` by the node's
type tag, falling back to `unknown_visit`. The three skip handlers
(`visit_comment`, `visit_substitution_definition`, `visit_system_message`)
consist of `raise SkipNode` — the *locally defined* `main.SkipNode`. -/
def dispatch_visit (node : Node) (s : MarkdownTranslator) :
    Except PyExc MarkdownTranslator :=
  match node with
  | Node.text _ => Except.ok (visit_Text node s)
  | Node.elem tag _ _ =>
    match tag with
    | Tag.document => Except.ok (visit_document node s)
    | Tag.«section» => Except.ok (visit_section node s)
    | Tag.title => Except.ok (visit_title node s)
    | Tag.subtitle => Except.ok (visit_subtitle node s)
    | Tag.paragraph => Except.ok (visit_paragraph node s)
    | Tag.emphasis => Except.ok (visit_emphasis node s)
    | Tag.strong => Except.ok (visit_strong node s)
    | Tag.literal => Except.ok (visit_literal node s)
    | Tag.bullet_list => Except.ok (visit_bullet_list node s)
    | Tag.enumerated_list => Except.ok (visit_enumerated_list node s)
    | Tag.list_item => Except.ok (visit_list_item node s)
    | Tag.reference => Except.ok (visit_reference node s)
    | Tag.literal_block => Except.ok (visit_literal_block node s)
    | Tag.table => Except.ok (visit_table node s)
    | Tag.row => Except.ok (visit_row node s)
    | Tag.entry => Except.ok (visit_entry node s)
    | Tag.transition => Except.ok (visit_transition node s)
    | Tag.image => Except.ok (visit_image node s)
    | Tag.block_quote => Except.ok (visit_block_quote node s)
    | Tag.definition_list => Except.ok (visit_definition_list node s)
    | Tag.definition_list_item => Except.ok (visit_definition_list_item node s)
    | Tag.term => Except.ok (visit_term node s)
    | Tag.definition => Except.ok (visit_definition node s)
    | Tag.target => Except.ok (visit_target node s)
    | Tag.substitution_definition => Except.error PyExc.SkipNode
    | Tag.comment => Except.error PyExc.SkipNode
    | Tag.system_message => Except.error PyExc.SkipNode
    | Tag.other _ => Except.ok (unknown_visit node s)

/-- `NodeVisitor.dispatch_departure`: select `depart_<class name>`, falling
back to `unknown_departure` (no depart method exists for the three skipped
node types). -/
def dispatch_depart (node : Node) (s : MarkdownTranslator) : MarkdownTranslator :=
  match node with
  | Node.text _ => depart_Text node s
  | Node.elem tag _ _ =>
    match tag with
    | Tag.document => depart_document node s
    | Tag.«section» => depart_section node s
    | Tag.title => depart_title node s
    | Tag.subtitle => depart_subtitle node s
    | Tag.paragraph => depart_paragraph node s
    | Tag.emphasis => depart_emphasis node s
    | Tag.strong => depart_strong node s
    | Tag.literal => depart_literal node s
    | Tag.bullet_list => depart_bullet_list node s
    | Tag.enumerated_list => depart_enumerated_list node s
    | Tag.list_item => depart_list_item node s
    | Tag.reference => depart_reference node s
    | Tag.literal_block => depart_literal_block node s
    | Tag.table => depart_table node s
    | Tag.row => depart_row node s
    | Tag.entry => depart_entry node s
    | Tag.transition => depart_transition node s
    | Tag.image => depart_image node s
    | Tag.block_quote => depart_block_quote node s
    | Tag.definition_list => depart_definition_list node s
    | Tag.definition_list_item => depart_definition_list_item node s
    | Tag.term => depart_term node s
    | Tag.definition => depart_definition node s
    | Tag.target => depart_target node s
    | Tag.substitution_definition => unknown_departure node s
    | Tag.comment => unknown_departure node s
    | Tag.system_message => unknown_departure node s
    | Tag.other _ => unknown_departure node s

mutual
/-- `docutils.nodes.Node.walkabout` (the traversal engine, an external
fixed interface): dispatch the visit, and if it raises, catch it *only*
when the exception is docutils' own `docutils.nodes.SkipNode` (the
`except SkipNode:` clause of `walkabout` resolves in the `docutils.nodes`
module namespace); any other exception — in particular the repository's
local `main.SkipNode` — propagates out of the engine. Otherwise traverse
the children and dispatch the departure. The engine's other pruning
exceptions (`SkipDeparture`, `SkipSiblings`, `SkipChildren`,
`StopTraversal`) are never raised by this program and are omitted. -/
def walkabout : Node → MarkdownTranslator → Except PyExc MarkdownTranslator
  | Node.text str, s =>
    match dispatch_visit (Node.text str) s with
    | Except.error e =>
      if e = PyExc.docutilsSkipNode then Except.ok s else Except.error e
    | Except.ok s1 => Except.ok (dispatch_depart (Node.text str) s1)
  | Node.elem tag attrs children, s =>
    match dispatch_visit (Node.elem tag attrs children) s with
    | Except.error e =>
      if e = PyExc.docutilsSkipNode then Except.ok s else Except.error e
    | Except.ok s1 =>
      match walkaboutList children s1 with
      | Except.error e => Except.error e
      | Except.ok s2 => Except.ok (dispatch_depart (Node.elem tag attrs children) s2)

/-- The `for child in children` loop of `walkabout`. -/
def walkaboutList : List Node → MarkdownTranslator → Except PyExc MarkdownTranslator
  | [], s => Except.ok s
  | c :: cs, s =>
    match walkabout c s with
    | Except.error e => Except.error e
    | Except.ok s1 => walkaboutList cs s1
end

/-- `MarkdownWriter.translate`: construct a fresh `MarkdownTranslator`,
run `document.walkabout(visitor)`, and return `visitor.astext()`
(`"".join(self.output)`). An exception escaping `walkabout` escapes
`translate`. -/
def MarkdownWriter.translate (document : Node) : Except PyExc String :=
  match walkabout document initTranslator with
  | Except.ok visitor => Except.ok (pyJoin "" visitor.output)
  | Except.error e => Except.error e

/-- `convert_rst_to_md` after the external parse step: each call builds a
fresh `MarkdownWriter` (and hence a fresh translator state) and translates
the given document tree. -/
def convert_rst_to_md (doctree : Node) : Except PyExc String :=
  MarkdownWriter.translate doctree

/-- A sequence of independent `convert_rst_to_md` calls in one process:
each invocation constructs its own writer and translator state. -/
def runConversions (docs : List Node) : List (Except PyExc String) :=
  docs.map convert_rst_to_md

/-- Number of `"bullet"` entries on the `list_type` stack, as an integer
(the quantity `visit_bullet_list`/`depart_bullet_list` add to and subtract
from `list_depth`). -/
def bulletCount (l : List String) : Int :=
  ((l.filter (fun kind => kind = "bullet")).length : Int)

mutual
/-- No node in the tree carries the tag `bad`. -/
def avoidsTag (bad : Tag) : Node → Bool
  | Node.text _ => true
  | Node.elem tag _ cs => tag != bad && avoidsTagList bad cs

def avoidsTagList (bad : Tag) : List Node → Bool
  | [] => true
  | c :: cs => avoidsTag bad c && avoidsTagList bad cs
end

mutual
/-- The tree consists only of inline markup: `Text` leaves and
`emphasis` / `strong` / `literal` elements. -/
def inlineB : Node → Bool
  | Node.text _ => true
  | Node.elem tag _ cs =>
    (tag == Tag.emphasis || tag == Tag.strong || tag == Tag.literal) && inlineListB cs

def inlineListB : List Node → Bool
  | [] => true
  | c :: cs => inlineB c && inlineListB cs
end

/-- `inner` wrapped in `k` nested `section` elements. -/
def nestSections : Nat → Node → Node
  | 0, inner => inner
  | k + 1, inner => Node.elem Tag.«section» {} [nestSections k inner]

/-- No visit handler of this program raises docutils' own
`docutils.nodes.SkipNode` — the three skip handlers raise the local
`main.SkipNode` instead. -/
theorem dispatch_visit_no_docutils (n : Node) (s : MarkdownTranslator) :
    dispatch_visit n s ≠ Except.error PyExc.docutilsSkipNode := by
  cases n with
  | text str => simp [dispatch_visit]
  | elem tag attrs cs => cases tag <;> simp [dispatch_visit]

/-- Inversion for a successful `walkabout` of an element: the visit
succeeded, the children traversal succeeded, and the result is the
departure of the children's final state. -/
theorem walkabout_elem_ok {tag : Tag} {attrs : Attrs} {cs : List Node}
    {s s1 : MarkdownTranslator}
    (h : walkabout (Node.elem tag attrs cs) s = Except.ok s1) :
    ∃ sv s2, dispatch_visit (Node.elem tag attrs cs) s = Except.ok sv ∧
      walkaboutList cs sv = Except.ok s2 ∧
      s1 = dispatch_depart (Node.elem tag attrs cs) s2 := by
  unfold walkabout at h
  split at h
  · next e heq =>
    split at h
    · next he => exact absurd (he ▸ heq) (dispatch_visit_no_docutils _ _)
    · exact absurd h (by simp)
  · next sv heq =>
    split at h
    · exact absurd h (by simp)
    · next s2 heq2 =>
      exact ⟨sv, s2, heq, heq2, by injection h with h2; exact h2.symm⟩

/-- Forward computation for `walkabout` on an element whose visit and
children traversal succeed. -/
theorem walkabout_elem_eq {tag : Tag} {attrs : Attrs} {cs : List Node}
    {s sv s2 : MarkdownTranslator}
    (hv : dispatch_visit (Node.elem tag attrs cs) s = Except.ok sv)
    (hw : walkaboutList cs sv = Except.ok s2) :
    walkabout (Node.elem tag attrs cs) s =
      Except.ok (dispatch_depart (Node.elem tag attrs cs) s2) := by
  unfold walkabout
  rw [hv]
  dsimp only
  rw [hw]

/-- `walkabout` on a `Text` leaf. -/
theorem walkabout_text (str : String) (s : MarkdownTranslator) :
    walkabout (Node.text str) s = Except.ok (visit_Text (Node.text str) s) := rfl

/-- `walkaboutList` step equations. -/
theorem walkaboutList_nil (s : MarkdownTranslator) :
    walkaboutList [] s = Except.ok s := rfl

theorem walkaboutList_cons_ok {c : Node} {cs : List Node}
    {s s1 : MarkdownTranslator} (h : walkabout c s = Except.ok s1) :
    walkaboutList (c :: cs) s = walkaboutList cs s1 := by
  conv_lhs => unfold walkaboutList
  rw [h]


/-- One pending-reference definition line: `[ref_id]: uri` when the
original name `p.2` is bound in `refs_map`, nothing otherwise. -/
def pendingLine (st : MarkdownTranslator) (p : String × String) : Option String :=
  (dictGet st.refs_map p.2).map (fun uri => "[" ++ p.1 ++ "]: " ++ uri ++ "\n")

/-- `pendingLine` only reads `refs_map`, so changing `output` leaves it
untouched. -/
theorem pendingLine_output (st : MarkdownTranslator) (out2 : List String) :
    pendingLine { st with output := out2 } = pendingLine st := rfl

/-- Closed form of the pending-reference resolution loop. -/
theorem foldl_resolvePendingRef (pend : List (String × String)) (st : MarkdownTranslator) :
    pend.foldl resolvePendingRef st =
      { st with output := st.output ++ pend.filterMap (pendingLine st) } := by
  induction pend generalizing st with
  | nil => simp
  | cons p ps ih =>
    rw [List.foldl_cons, ih]
    unfold resolvePendingRef
    cases hg : dictGet st.refs_map p.2 with
    | none => simp [List.filterMap_cons, pendingLine, hg]
    | some uri => simp [List.filterMap_cons, pendingLine, pendingLine_output, hg]

/-- Closed form of `depart_document`: nothing when no references are
pending, otherwise a blank line followed by one definition line per
pending reference resolvable in `refs_map`. -/
theorem depart_document_eq (n : Node) (s : MarkdownTranslator) :
    depart_document n s =
      if s.pending_refs.isEmpty then s
      else { s with output := s.output ++ "\n\n" :: s.pending_refs.filterMap (pendingLine s) } := by
  unfold depart_document
  split
  · rfl
  · rw [foldl_resolvePendingRef]
    simp [pendingLine_output]

/-- The node is a `table` element (the only node kind whose handlers touch
`in_table`). -/
def isTableNode : Node → Bool
  | Node.elem Tag.table _ _ => true
  | _ => false

/-- What the visit handler pushes onto `list_type`. -/
def visitPush : Node → List String
  | Node.elem Tag.bullet_list _ _ => ["bullet"]
  | Node.elem Tag.enumerated_list _ _ => ["enumerated"]
  | _ => []

/-- What the visit handler adds to `list_depth`. -/
def visitDepthDelta : Node → Int
  | Node.elem Tag.bullet_list _ _ => 1
  | _ => 0

/-- What the visit handler adds to `section_level`. -/
def visitLevelDelta : Node → Int
  | Node.elem Tag.«section» _ _ => 1
  | Node.elem Tag.subtitle _ _ => 1
  | _ => 0

/-- Whether the depart handler pops `list_type`. -/
def departPops : Node → Bool
  | Node.elem Tag.bullet_list _ _ => true
  | Node.elem Tag.enumerated_list _ _ => true
  | _ => false

/-- What the depart handler subtracts from `list_depth`. -/
def departDepthDelta : Node → Int
  | Node.elem Tag.bullet_list _ _ => 1
  | _ => 0

/-- What the depart handler subtracts from `section_level`. -/
def departLevelDelta : Node → Int
  | Node.elem Tag.«section» _ _ => 1
  | _ => 0

/-- Field effects of a successful visit dispatch on the traversal-context
state: `list_type` gains exactly the handler push, `list_depth` and
`section_level` move by the handler delta, and `in_table` is set only by
`visit_table`. -/
theorem dispatch_visit_frame (n : Node) (s sv : MarkdownTranslator)
    (h : dispatch_visit n s = Except.ok sv) :
    sv.list_type = s.list_type ++ visitPush n ∧
    sv.list_depth = s.list_depth + visitDepthDelta n ∧
    sv.section_level = s.section_level + visitLevelDelta n ∧
    sv.in_table = (isTableNode n || s.in_table) := by
  cases n with
  | text str =>
    simp only [dispatch_visit, Except.ok.injEq] at h
    subst h
    refine ⟨?_, ?_, ?_, ?_⟩ <;>
      simp only [visit_Text] <;> (repeat' split) <;>
      simp [visitPush, visitDepthDelta, visitLevelDelta, isTableNode]
  | elem tag attrs cs =>
    cases tag with
    | document =>
      simp only [dispatch_visit, Except.ok.injEq] at h
      subst h
      refine ⟨?_, ?_, ?_, ?_⟩ <;>
        simp only [visit_document] <;> (repeat' split) <;>
        simp [visitPush, visitDepthDelta, visitLevelDelta, isTableNode]
    | «section» =>
      simp only [dispatch_visit, Except.ok.injEq] at h
      subst h
      refine ⟨?_, ?_, ?_, ?_⟩ <;>
        simp only [visit_section] <;> (repeat' split) <;>
        simp [visitPush, visitDepthDelta, visitLevelDelta, isTableNode]
    | title =>
      simp only [dispatch_visit, Except.ok.injEq] at h
      subst h
      refine ⟨?_, ?_, ?_, ?_⟩ <;>
        simp only [visit_title] <;> (repeat' split) <;>
        simp [visitPush, visitDepthDelta, visitLevelDelta, isTableNode]
    | subtitle =>
      simp only [dispatch_visit, Except.ok.injEq] at h
      subst h
      refine ⟨?_, ?_, ?_, ?_⟩ <;>
        simp only [visit_subtitle] <;> (repeat' split) <;>
        simp [visitPush, visitDepthDelta, visitLevelDelta, isTableNode]
    | paragraph =>
      simp only [dispatch_visit, Except.ok.injEq] at h
      subst h
      refine ⟨?_, ?_, ?_, ?_⟩ <;>
        simp only [visit_paragraph] <;> (repeat' split) <;>
        simp [visitPush, visitDepthDelta, visitLevelDelta, isTableNode]
    | emphasis =>
      simp only [dispatch_visit, Except.ok.injEq] at h
      subst h
      refine ⟨?_, ?_, ?_, ?_⟩ <;>
        simp only [visit_emphasis] <;> (repeat' split) <;>
        simp [visitPush, visitDepthDelta, visitLevelDelta, isTableNode]
    | strong =>
      simp only [dispatch_visit, Except.ok.injEq] at h
      subst h
      refine ⟨?_, ?_, ?_, ?_⟩ <;>
        simp only [visit_strong] <;> (repeat' split) <;>
        simp [visitPush, visitDepthDelta, visitLevelDelta, isTableNode]
    | literal =>
      simp only [dispatch_visit, Except.ok.injEq] at h
      subst h
      refine ⟨?_, ?_, ?_, ?_⟩ <;>
        simp only [visit_literal] <;> (repeat' split) <;>
        simp [visitPush, visitDepthDelta, visitLevelDelta, isTableNode]
    | bullet_list =>
      simp only [dispatch_visit, Except.ok.injEq] at h
      subst h
      refine ⟨?_, ?_, ?_, ?_⟩ <;>
        simp only [visit_bullet_list] <;> (repeat' split) <;>
        simp [visitPush, visitDepthDelta, visitLevelDelta, isTableNode]
    | enumerated_list =>
      simp only [dispatch_visit, Except.ok.injEq] at h
      subst h
      refine ⟨?_, ?_, ?_, ?_⟩ <;>
        simp only [visit_enumerated_list] <;> (repeat' split) <;>
        simp [visitPush, visitDepthDelta, visitLevelDelta, isTableNode]
    | list_item =>
      simp only [dispatch_visit, Except.ok.injEq] at h
      subst h
      refine ⟨?_, ?_, ?_, ?_⟩ <;>
        simp only [visit_list_item] <;> (repeat' split) <;>
        simp [visitPush, visitDepthDelta, visitLevelDelta, isTableNode]
    | reference =>
      simp only [dispatch_visit, Except.ok.injEq] at h
      subst h
      refine ⟨?_, ?_, ?_, ?_⟩ <;>
        simp only [visit_reference] <;> (repeat' split) <;>
        simp [visitPush, visitDepthDelta, visitLevelDelta, isTableNode]
    | literal_block =>
      simp only [dispatch_visit, Except.ok.injEq] at h
      subst h
      refine ⟨?_, ?_, ?_, ?_⟩ <;>
        simp only [visit_literal_block] <;> (repeat' split) <;>
        simp [visitPush, visitDepthDelta, visitLevelDelta, isTableNode]
    | table =>
      simp only [dispatch_visit, Except.ok.injEq] at h
      subst h
      refine ⟨?_, ?_, ?_, ?_⟩ <;>
        simp only [visit_table] <;> (repeat' split) <;>
        simp [visitPush, visitDepthDelta, visitLevelDelta, isTableNode]
    | row =>
      simp only [dispatch_visit, Except.ok.injEq] at h
      subst h
      refine ⟨?_, ?_, ?_, ?_⟩ <;>
        simp only [visit_row] <;> (repeat' split) <;>
        simp [visitPush, visitDepthDelta, visitLevelDelta, isTableNode]
    | entry =>
      simp only [dispatch_visit, Except.ok.injEq] at h
      subst h
      refine ⟨?_, ?_, ?_, ?_⟩ <;>
        simp only [visit_entry] <;> (repeat' split) <;>
        simp [visitPush, visitDepthDelta, visitLevelDelta, isTableNode]
    | transition =>
      simp only [dispatch_visit, Except.ok.injEq] at h
      subst h
      refine ⟨?_, ?_, ?_, ?_⟩ <;>
        simp only [visit_transition] <;> (repeat' split) <;>
        simp [visitPush, visitDepthDelta, visitLevelDelta, isTableNode]
    | image =>
      simp only [dispatch_visit, Except.ok.injEq] at h
      subst h
      refine ⟨?_, ?_, ?_, ?_⟩ <;>
        simp only [visit_image] <;> (repeat' split) <;>
        simp [visitPush, visitDepthDelta, visitLevelDelta, isTableNode]
    | block_quote =>
      simp only [dispatch_visit, Except.ok.injEq] at h
      subst h
      refine ⟨?_, ?_, ?_, ?_⟩ <;>
        simp only [visit_block_quote] <;> (repeat' split) <;>
        simp [visitPush, visitDepthDelta, visitLevelDelta, isTableNode]
    | definition_list =>
      simp only [dispatch_visit, Except.ok.injEq] at h
      subst h
      refine ⟨?_, ?_, ?_, ?_⟩ <;>
        simp only [visit_definition_list] <;> (repeat' split) <;>
        simp [visitPush, visitDepthDelta, visitLevelDelta, isTableNode]
    | definition_list_item =>
      simp only [dispatch_visit, Except.ok.injEq] at h
      subst h
      refine ⟨?_, ?_, ?_, ?_⟩ <;>
        simp only [visit_definition_list_item] <;> (repeat' split) <;>
        simp [visitPush, visitDepthDelta, visitLevelDelta, isTableNode]
    | term =>
      simp only [dispatch_visit, Except.ok.injEq] at h
      subst h
      refine ⟨?_, ?_, ?_, ?_⟩ <;>
        simp only [visit_term] <;> (repeat' split) <;>
        simp [visitPush, visitDepthDelta, visitLevelDelta, isTableNode]
    | definition =>
      simp only [dispatch_visit, Except.ok.injEq] at h
      subst h
      refine ⟨?_, ?_, ?_, ?_⟩ <;>
        simp only [visit_definition] <;> (repeat' split) <;>
        simp [visitPush, visitDepthDelta, visitLevelDelta, isTableNode]
    | target =>
      simp only [dispatch_visit, Except.ok.injEq] at h
      subst h
      refine ⟨?_, ?_, ?_, ?_⟩ <;>
        simp only [visit_target] <;> (repeat' split) <;>
        simp [visitPush, visitDepthDelta, visitLevelDelta, isTableNode]
    | substitution_definition =>
      simp only [dispatch_visit] at h
      exact Except.noConfusion h
    | comment =>
      simp only [dispatch_visit] at h
      exact Except.noConfusion h
    | system_message =>
      simp only [dispatch_visit] at h
      exact Except.noConfusion h
    | other nm =>
      simp only [dispatch_visit, Except.ok.injEq] at h
      subst h
      refine ⟨?_, ?_, ?_, ?_⟩ <;>
        simp only [unknown_visit] <;>
        simp [visitPush, visitDepthDelta, visitLevelDelta, isTableNode]

/-- Field effects of the depart dispatch: `list_type` loses its last entry
exactly for the two list kinds, `list_depth` and `section_level` move by
the handler delta, and only `depart_table` can change `in_table`. -/
theorem dispatch_depart_frame (n : Node) (s : MarkdownTranslator) :
    (dispatch_depart n s).list_type =
        (if departPops n then s.list_type.dropLast else s.list_type) ∧
    (dispatch_depart n s).list_depth = s.list_depth - departDepthDelta n ∧
    (dispatch_depart n s).section_level = s.section_level - departLevelDelta n ∧
    (isTableNode n = false → (dispatch_depart n s).in_table = s.in_table) := by
  cases n with
  | text str =>
    refine ⟨?_, ?_, ?_, ?_⟩ <;>
      simp only [dispatch_depart, depart_Text] <;> (repeat' split) <;>
      (first
        | rfl
        | simp_all [departPops, departDepthDelta, departLevelDelta, isTableNode])
  | elem tag attrs cs =>
    cases tag with
    | document =>
      refine ⟨?_, ?_, ?_, ?_⟩ <;>
        simp only [dispatch_depart, depart_document_eq] <;> (repeat' split) <;>
        (first
          | rfl
          | simp_all [departPops, departDepthDelta, departLevelDelta, isTableNode])
    | «section» =>
      refine ⟨?_, ?_, ?_, ?_⟩ <;>
        simp only [dispatch_depart, depart_section] <;> (repeat' split) <;>
        (first
          | rfl
          | simp_all [departPops, departDepthDelta, departLevelDelta, isTableNode])
    | title =>
      refine ⟨?_, ?_, ?_, ?_⟩ <;>
        simp only [dispatch_depart, depart_title] <;> (repeat' split) <;>
        (first
          | rfl
          | simp_all [departPops, departDepthDelta, departLevelDelta, isTableNode])
    | subtitle =>
      refine ⟨?_, ?_, ?_, ?_⟩ <;>
        simp only [dispatch_depart, depart_subtitle] <;> (repeat' split) <;>
        (first
          | rfl
          | simp_all [departPops, departDepthDelta, departLevelDelta, isTableNode])
    | paragraph =>
      refine ⟨?_, ?_, ?_, ?_⟩ <;>
        simp only [dispatch_depart, depart_paragraph] <;> (repeat' split) <;>
        (first
          | rfl
          | simp_all [departPops, departDepthDelta, departLevelDelta, isTableNode])
    | emphasis =>
      refine ⟨?_, ?_, ?_, ?_⟩ <;>
        simp only [dispatch_depart, depart_emphasis] <;> (repeat' split) <;>
        (first
          | rfl
          | simp_all [departPops, departDepthDelta, departLevelDelta, isTableNode])
    | strong =>
      refine ⟨?_, ?_, ?_, ?_⟩ <;>
        simp only [dispatch_depart, depart_strong] <;> (repeat' split) <;>
        (first
          | rfl
          | simp_all [departPops, departDepthDelta, departLevelDelta, isTableNode])
    | literal =>
      refine ⟨?_, ?_, ?_, ?_⟩ <;>
        simp only [dispatch_depart, depart_literal] <;> (repeat' split) <;>
        (first
          | rfl
          | simp_all [departPops, departDepthDelta, departLevelDelta, isTableNode])
    | bullet_list =>
      refine ⟨?_, ?_, ?_, ?_⟩ <;>
        simp only [dispatch_depart, depart_bullet_list] <;> (repeat' split) <;>
        (first
          | rfl
          | simp_all [departPops, departDepthDelta, departLevelDelta, isTableNode])
    | enumerated_list =>
      refine ⟨?_, ?_, ?_, ?_⟩ <;>
        simp only [dispatch_depart, depart_enumerated_list] <;> (repeat' split) <;>
        (first
          | rfl
          | simp_all [departPops, departDepthDelta, departLevelDelta, isTableNode])
    | list_item =>
      refine ⟨?_, ?_, ?_, ?_⟩ <;>
        simp only [dispatch_depart, depart_list_item] <;> (repeat' split) <;>
        (first
          | rfl
          | simp_all [departPops, departDepthDelta, departLevelDelta, isTableNode])
    | reference =>
      refine ⟨?_, ?_, ?_, ?_⟩ <;>
        simp only [dispatch_depart, depart_reference] <;> (repeat' split) <;>
        (first
          | rfl
          | simp_all [departPops, departDepthDelta, departLevelDelta, isTableNode])
    | literal_block =>
      refine ⟨?_, ?_, ?_, ?_⟩ <;>
        simp only [dispatch_depart, depart_literal_block] <;> (repeat' split) <;>
        (first
          | rfl
          | simp_all [departPops, departDepthDelta, departLevelDelta, isTableNode])
    | table =>
      refine ⟨?_, ?_, ?_, ?_⟩ <;>
        simp only [dispatch_depart, depart_table] <;> (repeat' split) <;>
        (first
          | rfl
          | simp_all [departPops, departDepthDelta, departLevelDelta, isTableNode])
    | row =>
      refine ⟨?_, ?_, ?_, ?_⟩ <;>
        simp only [dispatch_depart, depart_row] <;> (repeat' split) <;>
        (first
          | rfl
          | simp_all [departPops, departDepthDelta, departLevelDelta, isTableNode])
    | entry =>
      refine ⟨?_, ?_, ?_, ?_⟩ <;>
        simp only [dispatch_depart, depart_entry] <;> (repeat' split) <;>
        (first
          | rfl
          | simp_all [departPops, departDepthDelta, departLevelDelta, isTableNode])
    | transition =>
      refine ⟨?_, ?_, ?_, ?_⟩ <;>
        simp only [dispatch_depart, depart_transition] <;> (repeat' split) <;>
        (first
          | rfl
          | simp_all [departPops, departDepthDelta, departLevelDelta, isTableNode])
    | image =>
      refine ⟨?_, ?_, ?_, ?_⟩ <;>
        simp only [dispatch_depart, depart_image] <;> (repeat' split) <;>
        (first
          | rfl
          | simp_all [departPops, departDepthDelta, departLevelDelta, isTableNode])
    | block_quote =>
      refine ⟨?_, ?_, ?_, ?_⟩ <;>
        simp only [dispatch_depart, depart_block_quote] <;> (repeat' split) <;>
        (first
          | rfl
          | simp_all [departPops, departDepthDelta, departLevelDelta, isTableNode])
    | definition_list =>
      refine ⟨?_, ?_, ?_, ?_⟩ <;>
        simp only [dispatch_depart, depart_definition_list] <;> (repeat' split) <;>
        (first
          | rfl
          | simp_all [departPops, departDepthDelta, departLevelDelta, isTableNode])
    | definition_list_item =>
      refine ⟨?_, ?_, ?_, ?_⟩ <;>
        simp only [dispatch_depart, depart_definition_list_item] <;> (repeat' split) <;>
        (first
          | rfl
          | simp_all [departPops, departDepthDelta, departLevelDelta, isTableNode])
    | term =>
      refine ⟨?_, ?_, ?_, ?_⟩ <;>
        simp only [dispatch_depart, depart_term] <;> (repeat' split) <;>
        (first
          | rfl
          | simp_all [departPops, departDepthDelta, departLevelDelta, isTableNode])
    | definition =>
      refine ⟨?_, ?_, ?_, ?_⟩ <;>
        simp only [dispatch_depart, depart_definition] <;> (repeat' split) <;>
        (first
          | rfl
          | simp_all [departPops, departDepthDelta, departLevelDelta, isTableNode])
    | target =>
      refine ⟨?_, ?_, ?_, ?_⟩ <;>
        simp only [dispatch_depart, depart_target] <;> (repeat' split) <;>
        (first
          | rfl
          | simp_all [departPops, departDepthDelta, departLevelDelta, isTableNode])
    | substitution_definition =>
      refine ⟨?_, ?_, ?_, ?_⟩ <;>
        simp only [dispatch_depart, unknown_departure] <;> (repeat' split) <;>
        (first
          | rfl
          | simp_all [departPops, departDepthDelta, departLevelDelta, isTableNode])
    | comment =>
      refine ⟨?_, ?_, ?_, ?_⟩ <;>
        simp only [dispatch_depart, unknown_departure] <;> (repeat' split) <;>
        (first
          | rfl
          | simp_all [departPops, departDepthDelta, departLevelDelta, isTableNode])
    | system_message =>
      refine ⟨?_, ?_, ?_, ?_⟩ <;>
        simp only [dispatch_depart, unknown_departure] <;> (repeat' split) <;>
        (first
          | rfl
          | simp_all [departPops, departDepthDelta, departLevelDelta, isTableNode])
    | other nm =>
      refine ⟨?_, ?_, ?_, ?_⟩ <;>
        simp only [dispatch_depart, unknown_departure] <;> (repeat' split) <;>
        (first
          | rfl
          | simp_all [departPops, departDepthDelta, departLevelDelta, isTableNode])

mutual
/-- Traversal frame: a completed `walkabout` restores the list context
exactly (every push is matched by the pop of the same node's departure),
restores `section_level` if the tree contains no `subtitle` (whose depart
handler leaves the increment in place), and preserves `in_table` if the
tree contains no `table`. -/
theorem walkabout_frame : ∀ (t : Node) (s s1 : MarkdownTranslator),
    walkabout t s = Except.ok s1 →
    s1.list_type = s.list_type ∧ s1.list_depth = s.list_depth ∧
    (avoidsTag Tag.subtitle t = true → s1.section_level = s.section_level) ∧
    (avoidsTag Tag.table t = true → s1.in_table = s.in_table)
  | Node.text str, s, s1, h => by
    rw [walkabout_text, Except.ok.injEq] at h
    subst h
    unfold visit_Text
    refine ⟨?_, ?_, fun _ => ?_, fun _ => ?_⟩ <;> (dsimp only; split <;> rfl)
  | Node.elem tag attrs cs, s, s1, h => by
    obtain ⟨sv, s2, hv, hw, hd⟩ := walkabout_elem_ok h
    obtain ⟨e1, e2, e3, e4⟩ := walkaboutList_frame cs sv s2 hw
    obtain ⟨v1, v2, v3, v4⟩ := dispatch_visit_frame _ _ _ hv
    obtain ⟨d1, d2, d3, d4⟩ := dispatch_depart_frame (Node.elem tag attrs cs) s2
    subst hd
    refine ⟨?_, ?_, fun ha => ?_, fun ha => ?_⟩
    · rw [d1, e1, v1]
      cases tag <;> simp [departPops, visitPush, List.dropLast_concat]
    · rw [d2, e2, v2]
      cases tag <;> simp [departDepthDelta, visitDepthDelta]
    · rw [avoidsTag, Bool.and_eq_true, bne_iff_ne] at ha
      rw [d3, e3 ha.2, v3]
      have hne := ha.1
      cases tag <;> simp_all [visitLevelDelta, departLevelDelta]
    · rw [avoidsTag, Bool.and_eq_true, bne_iff_ne] at ha
      have hne := ha.1
      have htab : isTableNode (Node.elem tag attrs cs) = false := by
        cases tag <;> simp_all [isTableNode]
      rw [d4 htab, e4 ha.2, v4, htab]
      simp

theorem walkaboutList_frame : ∀ (ts : List Node) (s s1 : MarkdownTranslator),
    walkaboutList ts s = Except.ok s1 →
    s1.list_type = s.list_type ∧ s1.list_depth = s.list_depth ∧
    (avoidsTagList Tag.subtitle ts = true → s1.section_level = s.section_level) ∧
    (avoidsTagList Tag.table ts = true → s1.in_table = s.in_table)
  | [], s, s1, h => by
    rw [walkaboutList_nil, Except.ok.injEq] at h
    subst h
    exact ⟨rfl, rfl, fun _ => rfl, fun _ => rfl⟩
  | c :: cs, s, s1, h => by
    unfold walkaboutList at h
    cases hw : walkabout c s with
    | error e => rw [hw] at h; exact Except.noConfusion h
    | ok sm =>
      rw [hw] at h
      obtain ⟨a1, a2, a3, a4⟩ := walkabout_frame c s sm hw
      obtain ⟨b1, b2, b3, b4⟩ := walkaboutList_frame cs sm s1 h
      refine ⟨b1.trans a1, b2.trans a2, fun ha => ?_, fun ha => ?_⟩
      · rw [avoidsTagList, Bool.and_eq_true] at ha
        exact (b3 ha.2).trans (a3 ha.1)
      · rw [avoidsTagList, Bool.and_eq_true] at ha
        exact (b4 ha.2).trans (a4 ha.1)
end

mutual
/-- An inline subtree (text / emphasis / strong / literal), traversed
outside any table, only appends fragments to the output buffer — at least
one — and leaves every other state field untouched. -/
theorem inline_walkabout : ∀ (t : Node) (s : MarkdownTranslator),
    inlineB t = true → s.in_table = false →
    ∃ l, l ≠ [] ∧ walkabout t s = Except.ok { s with output := s.output ++ l }
  | Node.text str, s, _, ht => by
    refine ⟨[str], by simp, ?_⟩
    rw [walkabout_text]
    unfold visit_Text
    simp [astext, ht]
  | Node.elem tag attrs cs, s, hi, ht => by
    rw [inlineB, Bool.and_eq_true, Bool.or_eq_true, Bool.or_eq_true] at hi
    obtain ⟨hor, hcs⟩ := hi
    rw [beq_iff_eq, beq_iff_eq, beq_iff_eq] at hor
    rcases hor with (h | h) | h
    · subst h
      have hv : dispatch_visit (Node.elem Tag.emphasis attrs cs) s =
          Except.ok { s with output := s.output ++ ["*"] } := rfl
      obtain ⟨l2, hw, -⟩ :=
        inline_walkaboutList cs { s with output := s.output ++ ["*"] } hcs ht
      refine ⟨"*" :: l2 ++ ["*"], by simp, ?_⟩
      rw [walkabout_elem_eq hv hw]
      simp [dispatch_depart, depart_emphasis]
    · subst h
      have hv : dispatch_visit (Node.elem Tag.strong attrs cs) s =
          Except.ok { s with output := s.output ++ ["**"] } := rfl
      obtain ⟨l2, hw, -⟩ :=
        inline_walkaboutList cs { s with output := s.output ++ ["**"] } hcs ht
      refine ⟨"**" :: l2 ++ ["**"], by simp, ?_⟩
      rw [walkabout_elem_eq hv hw]
      simp [dispatch_depart, depart_strong]
    · subst h
      have hv : dispatch_visit (Node.elem Tag.literal attrs cs) s =
          Except.ok { s with output := s.output ++ ["`"] } := rfl
      obtain ⟨l2, hw, -⟩ :=
        inline_walkaboutList cs { s with output := s.output ++ ["`"] } hcs ht
      refine ⟨"`" :: l2 ++ ["`"], by simp, ?_⟩
      rw [walkabout_elem_eq hv hw]
      simp [dispatch_depart, depart_literal]

theorem inline_walkaboutList : ∀ (ts : List Node) (s : MarkdownTranslator),
    inlineListB ts = true → s.in_table = false →
    ∃ l, walkaboutList ts s = Except.ok { s with output := s.output ++ l } ∧
      (ts.isEmpty = false → l ≠ [])
  | [], s, _, _ => by
    refine ⟨[], ?_, by simp⟩
    rw [walkaboutList_nil]
    simp
  | c :: cs, s, hi, ht => by
    rw [inlineListB, Bool.and_eq_true] at hi
    obtain ⟨l1, hne1, hw1⟩ := inline_walkabout c s hi.1 ht
    obtain ⟨l2, hw2, -⟩ :=
      inline_walkaboutList cs { s with output := s.output ++ l1 } hi.2 ht
    refine ⟨l1 ++ l2, ?_, fun _ => by simp [hne1]⟩
    rw [walkaboutList_cons_ok hw1, hw2]
    simp
end

/-- `"".join` distributes over list append. -/
theorem pyJoin_empty_append (a b : List String) :
    pyJoin "" (a ++ b) = pyJoin "" a ++ pyJoin "" b := by
  induction a with
  | nil => simp [pyJoin]
  | cons x xs ih =>
    cases xs with
    | nil =>
      cases b with
      | nil => simp [pyJoin]
      | cons y ys => simp [pyJoin]
    | cons y ys =>
      simp only [List.cons_append, List.append_eq, pyJoin] at ih ⊢
      rw [ih]
      simp [String.append_assoc]

/-- `depart_reference` on a `refuri` reference whose children appended at
least one fragment beyond the opening bracket: the buffer is truncated
back to the bracket and the recorded plain text plus `](uri)` follow. -/
theorem depart_reference_truncates (node : Node) (s : MarkdownTranslator)
    (rs : List RefInfo) (info : RefInfo) (base l : List String) (uri : String)
    (hattr : node.nattrs.refuri = some uri)
    (hstack : s.reference_stack = rs ++ [info])
    (hout : s.output = base ++ l)
    (hbase : base.length = info.start + 1)
    (hl : l ≠ []) :
    depart_reference node s =
      { s with reference_stack := rs,
               output := base ++ [info.text, "](" ++ uri ++ ")"] } := by
  have hlpos : 0 < l.length := List.length_pos.mpr hl
  unfold depart_reference
  rw [hstack, List.getLast?_concat]
  dsimp only
  rw [List.dropLast_concat, hattr]
  have hcond : s.output.length > info.start + 1 := by
    rw [hout, List.length_append, hbase]
    omega
  rw [if_pos hcond, hout]
  have htake : (base ++ l).take (info.start + 1) = base := by
    rw [← hbase]
    exact List.take_left base l
  rw [htake]
  simp

/-- `depart_reference` on a `refuri` reference whose children appended
nothing: no truncation happens and `](uri)` is appended directly. -/
theorem depart_reference_no_extra (node : Node) (s : MarkdownTranslator)
    (rs : List RefInfo) (info : RefInfo) (uri : String)
    (hattr : node.nattrs.refuri = some uri)
    (hstack : s.reference_stack = rs ++ [info])
    (hlen : ¬ s.output.length > info.start + 1) :
    depart_reference node s =
      { s with reference_stack := rs,
               output := s.output ++ ["](" ++ uri ++ ")"] } := by
  unfold depart_reference
  rw [hstack, List.getLast?_concat]
  dsimp only
  rw [List.dropLast_concat, hattr]
  rw [if_neg hlen]

/-- `visit_reference` on a node carrying `refuri`: push the record and
emit the opening bracket. -/
theorem visit_reference_eq (node : Node) (s : MarkdownTranslator) (uri : String)
    (h : node.nattrs.refuri = some uri) :
    visit_reference node s =
      { s with
        reference_stack := s.reference_stack ++ [⟨s.output.length, astext node⟩],
        output := s.output ++ ["["] } := by
  unfold visit_reference
  simp [h]

/-- C2 counterexample: a `refuri` reference *inside a table entry* does
not produce `[click](uri)`: `visit_reference` writes the opening bracket
to the output buffer while `visit_Text` diverts the display text to the
cell buffer, so `depart_reference` finds no extra fragments and the
output receives only `[](uri)` — the text surfaces separately as the
table cell. This refutes the claim's universal quantification over every
reference node carrying `refuri`. -/
theorem c2_counterexample :
    MarkdownWriter.translate
        (Node.elem Tag.document {}
          [Node.elem Tag.table {}
            [Node.elem Tag.row {}
              [Node.elem Tag.entry {}
                [Node.elem Tag.paragraph {}
                  [Node.elem Tag.reference { refuri := some "https://x.test" }
                    [Node.text "click"]]]]]]) =
      Except.ok "[](https://x.test)\n\n\n| click |\n| --- |\n\n" ∧
    strContains "[](https://x.test)\n\n\n| click |\n| --- |\n\n" "[click](https://x.test)" =
      false ∧
    strContains "[](https://x.test)\n\n\n| click |\n| --- |\n\n" "[](https://x.test)" =
      true := by
  exact ⟨rfl, by decide, by decide⟩

/-- C2 (amended): for every reference node carrying a `refuri` attribute
that is traversed *outside a table*, whatever inline markup its children
would emit, the translated output for that node is exactly `[` followed
by the plain-text rendering of the whole reference subtree, followed by
`](uri)` — the restriction is forced because inside a table entry the
display text is diverted to the cell buffer and the output receives only
`[](uri)`. -/
theorem c2_reference_refuri_exact (uri : String) (attrs : Attrs) (cs : List Node)
    (s : MarkdownTranslator)
    (huri : attrs.refuri = some uri)
    (hinl : inlineListB cs = true)
    (htab : s.in_table = false) :
    (walkabout (Node.elem Tag.reference attrs cs) s).map (fun st => pyJoin "" st.output) =
      Except.ok (pyJoin "" s.output ++ "[" ++ astext (Node.elem Tag.reference attrs cs) ++
        "](" ++ uri ++ ")") := by
  have hattr : (Node.elem Tag.reference attrs cs).nattrs.refuri = some uri := by
    simpa [Node.nattrs] using huri
  have hv : dispatch_visit (Node.elem Tag.reference attrs cs) s =
      Except.ok
        { s with
          reference_stack :=
            s.reference_stack ++ [⟨s.output.length, astext (Node.elem Tag.reference attrs cs)⟩],
          output := s.output ++ ["["] } := by
    show Except.ok (visit_reference _ _) = _
    rw [visit_reference_eq _ _ uri hattr]
  cases cs with
  | nil =>
    rw [walkabout_elem_eq hv (walkaboutList_nil _)]
    have hdep := depart_reference_no_extra (Node.elem Tag.reference attrs [])
      { s with
        reference_stack :=
          s.reference_stack ++ [⟨s.output.length, astext (Node.elem Tag.reference attrs [])⟩],
        output := s.output ++ ["["] }
      s.reference_stack
      ⟨s.output.length, astext (Node.elem Tag.reference attrs [])⟩
      uri hattr rfl (by simp)
    simp only [dispatch_depart]
    rw [hdep]
    simp [Except.map, pyJoin_empty_append, pyJoin, astext, astextList, String.append_assoc]
    have hs : ("[" : String) ++ ("](" ++ (uri ++ ")")) = "[](" ++ (uri ++ ")") := by
      rw [← String.append_assoc]
      rfl
    rw [hs]
  | cons c0 cs0 =>
    obtain ⟨l, hw, himp⟩ := inline_walkaboutList (c0 :: cs0)
      { s with
        reference_stack :=
          s.reference_stack ++
            [⟨s.output.length, astext (Node.elem Tag.reference attrs (c0 :: cs0))⟩],
        output := s.output ++ ["["] } hinl htab
    have hl : l ≠ [] := himp rfl
    rw [walkabout_elem_eq hv hw]
    have hdep := depart_reference_truncates (Node.elem Tag.reference attrs (c0 :: cs0))
      { s with
        reference_stack :=
          s.reference_stack ++
            [⟨s.output.length, astext (Node.elem Tag.reference attrs (c0 :: cs0))⟩],
        output := (s.output ++ ["["]) ++ l }
      s.reference_stack
      ⟨s.output.length, astext (Node.elem Tag.reference attrs (c0 :: cs0))⟩
      (s.output ++ ["["]) l uri hattr rfl rfl (by simp) hl
    simp only [dispatch_depart]
    rw [hdep]
    simp [Except.map, pyJoin_empty_append, pyJoin, String.append_assoc]

/-- C2 witness: a reference with `refuri="https://x.test"` and visible
text `"click"` wrapped in emphasis produces exactly
`[click](https://x.test)`. -/
theorem c2_reference_refuri_exact_witness :
    (walkabout
        (Node.elem Tag.reference { refuri := some "https://x.test" }
          [Node.elem Tag.emphasis {} [Node.text "click"]])
        initTranslator).map (fun st => pyJoin "" st.output) =
      Except.ok "[click](https://x.test)" :=
  c2_reference_refuri_exact "https://x.test" _ _ initTranslator rfl (by decide) rfl

/-- Traversing `k` nested sections around a one-text title from any state
outside a table emits exactly the heading fragment with
`section_level + k + 1` hash marks, the title text, and a blank line, and
restores every other field. -/
theorem nest_title_walkabout (k : Nat) (w : String) :
    ∀ (s : MarkdownTranslator), s.in_table = false →
    walkabout (nestSections k (Node.elem Tag.title {} [Node.text w])) s =
      Except.ok
        { s with
          output :=
            s.output ++ [pyMul "#" (s.section_level + (k : Int) + 1) ++ " ", w, "\n\n"] } := by
  induction k with
  | zero =>
    intro s htab
    have hv : dispatch_visit (Node.elem Tag.title {} [Node.text w]) s =
        Except.ok { s with output := s.output ++ [pyMul "#" (s.section_level + 1) ++ " "] } := by
      simp [dispatch_visit, visit_title, htab]
    have hx : walkabout (Node.text w)
        { s with output := s.output ++ [pyMul "#" (s.section_level + 1) ++ " "] } =
        Except.ok
          { s with
            output := (s.output ++ [pyMul "#" (s.section_level + 1) ++ " "]) ++ [w] } := by
      rw [walkabout_text]
      unfold visit_Text
      simp [astext, htab]
    have hw : walkaboutList [Node.text w]
        { s with output := s.output ++ [pyMul "#" (s.section_level + 1) ++ " "] } =
        Except.ok
          { s with
            output := (s.output ++ [pyMul "#" (s.section_level + 1) ++ " "]) ++ [w] } := by
      rw [walkaboutList_cons_ok hx, walkaboutList_nil]
    show walkabout (Node.elem Tag.title {} [Node.text w]) s = _
    rw [walkabout_elem_eq hv hw]
    simp [dispatch_depart, depart_title]
  | succ k ih =>
    intro s htab
    have hv : dispatch_visit
        (Node.elem Tag.«section» {} [nestSections k (Node.elem Tag.title {} [Node.text w])]) s =
        Except.ok { s with section_level := s.section_level + 1 } := rfl
    have hx := ih { s with section_level := s.section_level + 1 } htab
    have hw : walkaboutList [nestSections k (Node.elem Tag.title {} [Node.text w])]
        { s with section_level := s.section_level + 1 } =
        Except.ok
          { s with
            section_level := s.section_level + 1,
            output :=
              s.output ++ [pyMul "#" (s.section_level + 1 + (k : Int) + 1) ++ " ", w, "\n\n"] } := by
      rw [walkaboutList_cons_ok hx, walkaboutList_nil]
    show walkabout
        (Node.elem Tag.«section» {} [nestSections k (Node.elem Tag.title {} [Node.text w])]) s = _
    rw [walkabout_elem_eq hv hw]
    simp only [dispatch_depart, depart_section]
    have harg : s.section_level + 1 + (k : Int) + 1 = s.section_level + ((k : Int) + 1) + 1 := by
      ring
    rw [harg]
    have hcast : (((k + 1 : Nat)) : Int) = (k : Int) + 1 := by push_cast; ring
    rw [hcast]
    simp

/-- C5 counterexample: in the document `[subtitle "s", section [title "t"]]`
the title is nested in exactly one section, so the claim demands a heading
line of two hash marks (`## t`); the code emits three (`### t`), because
`visit_subtitle` incremented `section_level` and `depart_subtitle` never
decrements it (the decrement is commented out in the source). -/
theorem c5_counterexample :
    MarkdownWriter.translate
        (Node.elem Tag.document {}
          [Node.elem Tag.subtitle {} [Node.text "s"],
           Node.elem Tag.«section» {} [Node.elem Tag.title {} [Node.text "t"]]]) =
      Except.ok "## s\n\n### t\n\n" ∧
    strContains "## s\n\n### t\n\n" "### t" = true ∧
    strContains "## s\n\n### t\n\n" "\n## t" = false := by
  refine ⟨rfl, by decide, by decide⟩

/-- C5 (amended): in a document whose preceding content contains no
`subtitle` node (each subtitle permanently consumes one heading level) and
no `table` node, a title nested in `k` enclosing sections, for every `k`,
emits a heading fragment of exactly `k + 1` hash marks followed by a
space, then the title text and a blank line. -/
theorem c5_heading_level_amended (k : Nat) (pre : List Node) (w : String)
    (s1 : MarkdownTranslator)
    (hsub : avoidsTagList Tag.subtitle pre = true)
    (htab : avoidsTagList Tag.table pre = true)
    (hpre : walkaboutList pre initTranslator = Except.ok s1) :
    walkabout (nestSections k (Node.elem Tag.title {} [Node.text w])) s1 =
      Except.ok
        { s1 with output := s1.output ++ [pyMul "#" ((k : Int) + 1) ++ " ", w, "\n\n"] } := by
  obtain ⟨-, -, h3, h4⟩ := walkaboutList_frame pre initTranslator s1 hpre
  have hlev : s1.section_level = 0 := h3 hsub
  have htb : s1.in_table = false := h4 htab
  have hmain := nest_title_walkabout k w s1 htb
  have harg : s1.section_level + (k : Int) + 1 = (k : Int) + 1 := by
    rw [hlev]
    ring
  rw [harg] at hmain
  exact hmain

/-- C5 witness: one enclosing section, empty preceding content — the
heading fragment is `## `. -/
theorem c5_heading_level_amended_witness :
    walkabout (nestSections 1 (Node.elem Tag.title {} [Node.text "t"])) initTranslator =
      Except.ok
        { initTranslator with output := [pyMul "#" ((1 : Int) + 1) ++ " ", "t", "\n\n"] } :=
  c5_heading_level_amended 1 [] "t" initTranslator (by decide) (by decide) rfl

/-- C1 (refutation): entering a `comment`, `substitution_definition` or
`system_message` node raises the repository's own `SkipNode` (a plain
`Exception` subclass defined in `main.py`), which is a different class
from `docutils.nodes.SkipNode`; the traversal engine's `except SkipNode`
clause catches only the latter, so the signal escapes the engine and
aborts the whole translation — the skipped node's siblings are never
reached — instead of being caught with traversal proceeding normally.
The same document without the comment translates fine. -/
theorem c1_skip_signal_escapes_engine :
    (∀ (attrs : Attrs) (cs : List Node) (s : MarkdownTranslator),
        walkabout (Node.elem Tag.comment attrs cs) s = Except.error PyExc.SkipNode) ∧
    (∀ (attrs : Attrs) (cs : List Node) (s : MarkdownTranslator),
        walkabout (Node.elem Tag.substitution_definition attrs cs) s =
          Except.error PyExc.SkipNode) ∧
    (∀ (attrs : Attrs) (cs : List Node) (s : MarkdownTranslator),
        walkabout (Node.elem Tag.system_message attrs cs) s = Except.error PyExc.SkipNode) ∧
    MarkdownWriter.translate
        (Node.elem Tag.document {}
          [Node.elem Tag.comment {} [Node.text "hidden"],
           Node.elem Tag.paragraph {} [Node.text "hi"]]) = Except.error PyExc.SkipNode ∧
    MarkdownWriter.translate
        (Node.elem Tag.document {} [Node.elem Tag.paragraph {} [Node.text "hi"]]) =
      Except.ok "hi\n\n" := by
  exact ⟨fun attrs cs s => rfl, fun attrs cs s => rfl, fun attrs cs s => rfl, rfl, rfl⟩

/-- C3 (refutation): `visit_literal_block` emits the fence fragment
without a trailing newline, so the literal content lands on the same line
as the fence (` ```gofmt.Println() `), not on a line of its own; and in
the `classes` fallback the source compares the whole `classes` list
against the string `"code"` (never equal) and interpolates the list
itself, producing a fence tag like `['go']` — including for
`classes=["code"]`, which the claim says is excluded. -/
theorem c3_literal_block_fence :
    MarkdownWriter.translate
        (Node.elem Tag.document {}
          [Node.elem Tag.literal_block { language := some "go" } [Node.text "fmt.Println()"]]) =
      Except.ok "\n```gofmt.Println()\n```\n\n" ∧
    strContains "\n```gofmt.Println()\n```\n\n" "```go\n" = false ∧
    strContains "\n```gofmt.Println()\n```\n\n" "```gofmt.Println()" = true ∧
    MarkdownWriter.translate
        (Node.elem Tag.document {} [Node.elem Tag.literal_block { classes := ["go"] } []]) =
      Except.ok ("\n```[" ++ apos ++ "go" ++ apos ++ "]\n```\n\n") ∧
    MarkdownWriter.translate
        (Node.elem Tag.document {} [Node.elem Tag.literal_block { classes := ["code"] } []]) =
      Except.ok ("\n```[" ++ apos ++ "code" ++ apos ++ "]\n```\n\n") := by
  exact ⟨rfl, by decide, by decide, rfl, rfl⟩

/-- C4 (refutation): `depart_table` returns early on an empty table,
before its final `self.in_table = False`, so after leaving a zero-row
table the in-table flag is still set; a title following the table is then
captured as a table caption, and text following the table is captured
into the cell buffer (`entry_text`, still the initial `[]`) instead of
being emitted — the document `[empty table, paragraph "x"]` translates to
just the paragraph's blank line with no `x` in the output. -/
theorem c4_empty_table_leaves_flag :
    (walkabout (Node.elem Tag.table {} []) initTranslator).map (fun st => st.in_table) =
      Except.ok true ∧
    (walkaboutList [Node.elem Tag.table {} [], Node.elem Tag.title {} [Node.text "t"]]
        initTranslator).map (fun st => (st.in_table, st.table_caption)) =
      Except.ok (true, some "t") ∧
    MarkdownWriter.translate
        (Node.elem Tag.document {}
          [Node.elem Tag.table {} [], Node.elem Tag.paragraph {} [Node.text "x"]]) =
      Except.ok "\n\n" ∧
    strContains "\n\n" "x" = false := by
  exact ⟨rfl, rfl, rfl, by decide⟩

/-- C10 (refutation): a caption captured for a zero-row table survives
`depart_table`'s early return (the `delattr` is only on the emitting
path), so the next table in the document is emitted with the inherited
`*Table: cap*` line. -/
theorem c10_caption_outlives_table :
    MarkdownWriter.translate
        (Node.elem Tag.document {}
          [Node.elem Tag.table {} [Node.elem Tag.title {} [Node.text "cap"]],
           Node.elem Tag.table {}
             [Node.elem Tag.row {}
               [Node.elem Tag.entry {} [Node.text "A"],
                Node.elem Tag.entry {} [Node.text "B"]]]]) =
      Except.ok "\n\n\n| A | B |\n| --- | --- |\n\n*Table: cap*\n\n\n" ∧
    strContains "\n\n\n| A | B |\n| --- | --- |\n\n*Table: cap*\n\n\n" "*Table: cap*" = true := by
  exact ⟨rfl, by decide⟩

/-- C6 counterexample: immediately after `visit_enumerated_list` (an
intermediate point of any traversal of an enumerated list) the kind stack
has size 1 but `list_depth` is still 0 — the depth does not equal the
stack size; and a nested enumerated list (stack already holding a bullet,
so the new stack depth is 2) emits no leading blank line. -/
theorem c6_counterexample :
    (visit_enumerated_list (Node.elem Tag.enumerated_list {} []) initTranslator).list_type.length
        = 1 ∧
    ¬ (visit_enumerated_list (Node.elem Tag.enumerated_list {} []) initTranslator).list_depth =
        ((visit_enumerated_list (Node.elem Tag.enumerated_list {} [])
            initTranslator).list_type.length : Int) ∧
    (visit_enumerated_list (Node.elem Tag.enumerated_list {} [])
        { initTranslator with list_depth := 1, list_type := ["bullet"] }).output =
      ([] : List String) := by
  exact ⟨rfl, by decide, rfl⟩

/-- C6 (amended): bullet and enumerated lists each push a marker onto the
list-context stack on entry and pop it on leave, but only bullet lists
move the `list_depth` counter (and only a nested *bullet* sublist emits
the leading blank line; enumerated lists emit nothing on entry), so the
depth that determines list-item indentation equals the number of *bullet*
entries in the stack — not the stack size — an invariant preserved by
every complete node traversal. -/
theorem c6_list_stack_amended :
    (∀ (n : Node) (s : MarkdownTranslator),
        (visit_bullet_list n s).list_type = s.list_type ++ ["bullet"] ∧
        (visit_bullet_list n s).list_depth = s.list_depth + 1 ∧
        (s.list_depth + 1 > 1 → (visit_bullet_list n s).output = s.output ++ ["\n"]) ∧
        (¬ s.list_depth + 1 > 1 → (visit_bullet_list n s).output = s.output)) ∧
    (∀ (n : Node) (s : MarkdownTranslator),
        (visit_enumerated_list n s).list_type = s.list_type ++ ["enumerated"] ∧
        (visit_enumerated_list n s).list_depth = s.list_depth ∧
        (visit_enumerated_list n s).output = s.output) ∧
    (∀ (n : Node) (s : MarkdownTranslator),
        (depart_bullet_list n s).list_type = s.list_type.dropLast ∧
        (depart_bullet_list n s).list_depth = s.list_depth - 1) ∧
    (∀ (n : Node) (s : MarkdownTranslator),
        (depart_enumerated_list n s).list_type = s.list_type.dropLast ∧
        (depart_enumerated_list n s).list_depth = s.list_depth) ∧
    (∀ (t : Node) (s s1 : MarkdownTranslator), walkabout t s = Except.ok s1 →
        s1.list_type = s.list_type ∧ s1.list_depth = s.list_depth) ∧
    (∀ (t : Node) (s s1 : MarkdownTranslator),
        s.list_depth = bulletCount s.list_type → walkabout t s = Except.ok s1 →
        s1.list_depth = bulletCount s1.list_type) := by
  refine ⟨?_, ?_, ?_, ?_, ?_, ?_⟩
  · intro n s
    unfold visit_bullet_list
    refine ⟨?_, ?_, fun h => ?_, fun h => ?_⟩ <;> (dsimp only; split <;> simp_all)
  · intro n s
    exact ⟨rfl, rfl, rfl⟩
  · intro n s
    exact ⟨rfl, rfl⟩
  · intro n s
    exact ⟨rfl, rfl⟩
  · intro t s s1 h
    obtain ⟨e1, e2, -, -⟩ := walkabout_frame t s s1 h
    exact ⟨e1, e2⟩
  · intro t s s1 hinv h
    obtain ⟨e1, e2, -, -⟩ := walkabout_frame t s s1 h
    rw [e2, e1, hinv]

/-- C6 witness: the restoration and invariant parts applied to a concrete
one-item bullet list traversed from the initial state. -/
theorem c6_list_stack_amended_witness :
    ({ initTranslator with output := ["\n- ", "a", "\n"] } : MarkdownTranslator).list_depth =
      bulletCount
        ({ initTranslator with output := ["\n- ", "a", "\n"] } : MarkdownTranslator).list_type :=
  c6_list_stack_amended.2.2.2.2.2
    (Node.elem Tag.bullet_list {} [Node.elem Tag.list_item {} [Node.text "a"]])
    initTranslator { initTranslator with output := ["\n- ", "a", "\n"] } (by decide) rfl

/-- C7 counterexample: an enumerated list nested inside an enumerated
list item gets *no* indentation (the shared depth counter is untouched by
enumerated lists, so the item handler computes an empty indent), where
the claim demands three spaces per level: the output contains no
three-space-indented `1. ` line at all. -/
theorem c7_counterexample :
    MarkdownWriter.translate
        (Node.elem Tag.document {}
          [Node.elem Tag.enumerated_list {}
            [Node.elem Tag.list_item {}
              [Node.text "a",
               Node.elem Tag.enumerated_list {} [Node.elem Tag.list_item {} [Node.text "b"]]]]]) =
      Except.ok "\n1. a\n1. b\n\n" ∧
    strContains "\n1. a\n1. b\n\n" "   1. " = false := by
  exact ⟨rfl, by decide⟩

/-- C7 (amended): every list item emits a newline, an indentation computed
from the *bullet-depth* counter `list_depth` (two spaces per level below
the first for bullet items, three per level below the first for
enumerated items — enumerated lists themselves never advance that
counter), then `- ` for bullet items or always `1. ` for enumerated
items; a bullet list nested in a bullet list yields a top item line
starting `- ` and a nested item line starting with two spaces and `- `. -/
theorem c7_list_item_amended :
    (∀ (n : Node) (s : MarkdownTranslator), s.list_type.getLast? = some "bullet" →
        visit_list_item n s =
          { s with output := s.output ++ ["\n" ++ pyMul "  " (s.list_depth - 1) ++ "- "] }) ∧
    (∀ (n : Node) (s : MarkdownTranslator) (kind : String),
        s.list_type.getLast? = some kind → kind ≠ "bullet" →
        visit_list_item n s =
          { s with output := s.output ++ ["\n" ++ pyMul "   " (s.list_depth - 1) ++ "1. "] }) ∧
    MarkdownWriter.translate
        (Node.elem Tag.document {}
          [Node.elem Tag.bullet_list {}
            [Node.elem Tag.list_item {}
              [Node.text "a",
               Node.elem Tag.bullet_list {} [Node.elem Tag.list_item {} [Node.text "b"]]]]]) =
      Except.ok "\n- a\n\n  - b\n\n" := by
  refine ⟨?_, ?_, rfl⟩
  · intro n s h
    unfold visit_list_item
    rw [h]
    simp
  · intro n s kind h hne
    unfold visit_list_item
    rw [h]
    simp [hne]

/-- C7 witness: a bullet item at depth 1 emits `"\n- "` with empty
indentation. -/
theorem c7_list_item_amended_witness :
    visit_list_item (Node.elem Tag.list_item {} [])
        { initTranslator with list_depth := 1, list_type := ["bullet"] } =
      { initTranslator with list_depth := 1, list_type := ["bullet"], output := ["\n- "] } :=
  c7_list_item_amended.1 (Node.elem Tag.list_item {} [])
    { initTranslator with list_depth := 1, list_type := ["bullet"] } rfl

/-- C8: at document end, `depart_document` emits — after one blank line —
exactly one `[normalized-name]: uri` line for each queued named reference
whose original name is bound in the reference-target map (populated by
`refuri`-carrying, named target nodes), in queue order; a reference whose
target appears only later in the document still resolves (the map is
consulted only at document end), and a reference whose target was never
declared produces no definition line and no error. -/
theorem c8_pending_refs_resolved :
    (∀ (n : Node) (s : MarkdownTranslator),
        depart_document n s =
          if s.pending_refs.isEmpty then s
          else
            { s with
              output := s.output ++ "\n\n" :: s.pending_refs.filterMap (pendingLine s) }) ∧
    MarkdownWriter.translate
        (Node.elem Tag.document {}
          [Node.elem Tag.paragraph {}
            [Node.elem Tag.reference { refname := some "My Ref" } [Node.text "click"]],
           Node.elem Tag.target { refuri := some "http://e/", names := ["My Ref"] } []]) =
      Except.ok "[click][my-ref]\n\n\n\n[my-ref]: http://e/\n" ∧
    strContains "[click][my-ref]\n\n\n\n[my-ref]: http://e/\n" "[my-ref]: http://e/\n" = true ∧
    MarkdownWriter.translate
        (Node.elem Tag.document {}
          [Node.elem Tag.paragraph {}
            [Node.elem Tag.reference { refname := some "My Ref" } [Node.text "click"]]]) =
      Except.ok "[click][my-ref]\n\n\n\n" ∧
    strContains "[click][my-ref]\n\n\n\n" "]:" = false := by
  exact ⟨depart_document_eq, rfl, by decide, rfl, by decide⟩

/-- C9: conversions are stateless and deterministic — in any sequence of
`convert_rst_to_md` calls the result of a conversion depends only on its
own document (each call constructs a fresh writer and translator state),
and converting the same tree twice yields identical results. -/
theorem c9_conversion_stateless :
    (∀ (pre : List Node) (d : Node),
        (runConversions (pre ++ [d])).getLast? = some (convert_rst_to_md d)) ∧
    (∀ (d : Node), runConversions [d, d] = [convert_rst_to_md d, convert_rst_to_md d]) ∧
    (∀ (d : Node), convert_rst_to_md d = MarkdownWriter.translate d) := by
  refine ⟨?_, fun d => rfl, fun d => rfl⟩
  intro pre d
  unfold runConversions
  rw [List.map_append]
  exact List.getLast?_concat _
